import Mathlib

/-!
Shallow embedding of the hyperdrive consensus core (package `process`,
src/unnamed/part_000) and of the replica message filter
(src/replica/replica.go), together with theorems checking the
natural-language specification against it.

Go's `block.Height` and `block.Round` are `int64`; heights and rounds are
modelled as `Int` (no arithmetic in the engine comes near the 64-bit
boundary, which only matters for the binary serialization, where the
encoding is taken modulo 2^64 explicitly).  `Step` is `uint8` in Go and is
modelled as `Nat` with the four named constants.  Hashes and signatories
are opaque identifiers, modelled as `Nat`.
-/

abbrev Height := Int

abbrev Round := Int

def InvalidRound : Round := -1

abbrev Hash := Nat

def InvalidHash : Hash := 0

abbrev Signatory := Nat

abbrev Step := Nat

def StepNil : Step := 0

def StepPropose : Step := 1

def StepPrevote : Step := 2

def StepPrecommit : Step := 3

/-- A block, opaque to the core except for its hash, header height, header
round and (for genesis) its signatories, mirroring the `block.Block`
interface used by `process`. -/
structure Block where
  hash : Hash
  height : Height
  round : Round
  signatories : List Signatory
deriving DecidableEq, Repr

/-- The zero value of `block.Block`: its hash is the all-zero
`InvalidHash`.  Used for the unset locked/valid block. -/
def Block.invalid : Block := { hash := InvalidHash, height := 0, round := 0, signatories := [] }

/-- A Prevote message: height, round, block hash (InvalidHash is the nil
vote) and issuing signatory. -/
structure PrevoteMsg where
  height : Height
  round : Round
  blockHash : Hash
  signatory : Signatory
deriving DecidableEq, Repr

/-- A Precommit message: height, round, block hash (InvalidHash is the nil
vote) and issuing signatory. -/
structure PrecommitMsg where
  height : Height
  round : Round
  blockHash : Hash
  signatory : Signatory
deriving DecidableEq, Repr

/-- The catch-up bundle piggybacked on a Propose. -/
structure LatestCommit where
  block : Block
  precommits : List PrecommitMsg
deriving DecidableEq, Repr

/-- A Propose message.  `blockHash` of a propose is its block's hash. -/
structure ProposeMsg where
  height : Height
  round : Round
  block : Block
  validRound : Round
  signatory : Signatory
  latestCommit : LatestCommit
deriving DecidableEq, Repr

def ProposeMsg.blockHash (m : ProposeMsg) : Hash := m.block.hash

/-- Common accessors of the three vote kinds, for the shared tally. -/
class Vote (α : Type) where
  height : α → Height
  round : α → Round
  signatory : α → Signatory
  blockHash : α → Hash

instance : Vote ProposeMsg where
  height := ProposeMsg.height
  round := ProposeMsg.round
  signatory := ProposeMsg.signatory
  blockHash := ProposeMsg.blockHash

instance : Vote PrevoteMsg where
  height := PrevoteMsg.height
  round := PrevoteMsg.round
  signatory := PrevoteMsg.signatory
  blockHash := PrevoteMsg.blockHash

instance : Vote PrecommitMsg where
  height := PrecommitMsg.height
  round := PrecommitMsg.round
  signatory := PrecommitMsg.signatory
  blockHash := PrecommitMsg.blockHash

/-- Modelled from the spec: the vote tally (`Inbox` in the repository's
`process/state.go`, which is not under src/).  Per the spec (section 4.1)
it is a deduplicated set of votes keyed by (height, round, signatory),
configured with `f`, with count queries by (height, round) and by
(height, round, blockHash), a query by (height, round, signatory), and a
query returning all messages at the highest round seen at a height. -/
structure Inbox (α : Type) where
  f : Nat
  msgs : List α
deriving DecidableEq, Repr

/-- Modelled from the spec: number of distinct signatories voting at
`(h, r)` (the tally stores at most one vote per (height, round,
signatory)). -/
def Inbox.countAt [Vote α] (inbox : Inbox α) (h : Height) (r : Round) : Nat :=
  (inbox.msgs.filter (fun m => decide (Vote.height m = h ∧ Vote.round m = r))).length

/-- Modelled from the spec: `count(height, round, blockHash)`. -/
def Inbox.queryByHeightRoundBlockHash [Vote α] (inbox : Inbox α) (h : Height) (r : Round) (bh : Hash) : Nat :=
  (inbox.msgs.filter (fun m => decide (Vote.height m = h ∧ Vote.round m = r ∧ Vote.blockHash m = bh))).length

/-- Modelled from the spec: the (unique, by deduplication) message stored
for `(h, r, signatory)`, if any. -/
def Inbox.queryByHeightRoundSignatory [Vote α] (inbox : Inbox α) (h : Height) (r : Round) (s : Signatory) : Option α :=
  inbox.msgs.find? (fun m => decide (Vote.height m = h ∧ Vote.round m = r ∧ Vote.signatory m = s))

/-- Modelled from the spec: all messages at the single highest round seen
at height `h` (empty when no message at `h` has been seen). -/
def Inbox.queryMessagesByHeightWithHigestRound [Vote α] (inbox : Inbox α) (h : Height) : List α :=
  let atH := inbox.msgs.filter (fun m => decide (Vote.height m = h))
  match atH with
  | [] => []
  | m0 :: rest =>
    let mx := rest.foldl (fun a m2 => max a (Vote.round m2)) (Vote.round m0)
    atH.filter (fun m => decide (Vote.round m = mx))

/-- Modelled from the spec: `Insert` returns `(tally', totalCountAtThatHR,
firstTimeSeenInThatHR, firstTimeExceedingF, firstTimeExceeding2F)`; a
duplicate from the same signatory at the same (h, r) changes nothing and
returns all-false signals. -/
def Inbox.insert [Vote α] (inbox : Inbox α) (m : α) : Inbox α × Nat × Bool × Bool × Bool :=
  if inbox.msgs.any (fun m2 => decide (Vote.height m2 = Vote.height m ∧ Vote.round m2 = Vote.round m ∧ Vote.signatory m2 = Vote.signatory m)) then
    (inbox, inbox.countAt (Vote.height m) (Vote.round m), false, false, false)
  else
    let inbox2 : Inbox α := { inbox with msgs := inbox.msgs ++ [m] }
    let n := inbox2.countAt (Vote.height m) (Vote.round m)
    (inbox2, n, true, decide (n = inbox.f + 1), decide (n = 2 * inbox.f + 1))

/-- Modelled from the spec: a reset takes the height just committed and
retains at most the votes pertinent to that height and later (so that the
precommit certificate at the committed height can be piggybacked). -/
def Inbox.reset [Vote α] (inbox : Inbox α) (ph : Height) : Inbox α :=
  { inbox with msgs := inbox.msgs.filter (fun m => decide (Vote.height m ≥ ph)) }

/-- The isolated consensus state of a process (`process.State`). -/
structure State where
  currentHeight : Height
  currentRound : Round
  currentStep : Step
  lockedBlock : Block
  lockedRound : Round
  validBlock : Block
  validRound : Round
  proposals : Inbox ProposeMsg
  prevotes : Inbox PrevoteMsg
  precommits : Inbox PrecommitMsg
deriving DecidableEq, Repr

/-- Modelled from the spec: `State.Reset(previousHeight)` (in the
repository's `process/state.go`, not under src/) clears the locked and
valid block/round to their invalid sentinels and resets the three tallies
with the just-committed height. -/
def State.reset (st : State) (ph : Height) : State :=
  { st with
    lockedBlock := Block.invalid
    lockedRound := InvalidRound
    validBlock := Block.invalid
    validRound := InvalidRound
    proposals := st.proposals.reset ph
    prevotes := st.prevotes.reset ph
    precommits := st.precommits.reset ph }

/-- The external collaborators of a process (Scheduler, Validator,
Proposer, Timer, signature verification, Observer presence), modelled as
pure functions. -/
structure Env where
  scheduler : Height → Round → Signatory
  isBlockValid : Block → Bool → Bool
  blockProposal : Height → Round → Block
  timeout : Step → Round → Nat
  verify : PrecommitMsg → Bool
  hasObserver : Bool

/-- Observable side effects of the engine: broadcasts, timeout
scheduling, and Observer notification. -/
inductive Effect where
  | broadcastPropose (m : ProposeMsg)
  | broadcastPrevote (m : PrevoteMsg)
  | broadcastPrecommit (m : PrecommitMsg)
  | scheduleTimeoutPropose (h : Height) (r : Round) (d : Nat)
  | scheduleTimeoutPrevote (h : Height) (r : Round) (d : Nat)
  | scheduleTimeoutPrecommit (h : Height) (r : Round) (d : Nat)
  | didCommitBlock (h : Height)
deriving DecidableEq, Repr

/-- A process together with its collaborators and the block storage.  The
blockchain is a height-indexed store (at most one block per height). -/
structure Proc where
  env : Env
  signatory : Signatory
  blockchain : List (Height × Block)
  state : State

def Proc.blockAtHeight (p : Proc) (h : Height) : Option Block :=
  (p.blockchain.find? (fun e => decide (e.1 = h))).map (fun e => e.2)

def Proc.blockExistsAtHeight (p : Proc) (h : Height) : Bool :=
  p.blockchain.any (fun e => decide (e.1 = h))

def Proc.insertBlockAtHeight (p : Proc) (h : Height) (b : Block) : Proc :=
  { p with blockchain := (h, b) :: p.blockchain.filter (fun e => decide (e.1 ≠ h)) }

/-- Engine computations either finish with a new process and a list of
effects, or panic (`Except.error` carries the panic message). -/
abbrev EngineResult := Except String (Proc × List Effect)

/-- `Process.startRound` (part_000 lines 308-351): set the round and the
Propose step; if this process is the scheduled proposer, build a proposal
(the valid block if set, else a fresh one), attach the latest-commit
bundle for the previous height (panicking when the previous block is
absent from storage) and broadcast it; otherwise schedule a propose
timeout. -/
def startRound (p0 : Proc) (round : Round) : EngineResult :=
  let st : State := { p0.state with currentRound := round, currentStep := StepPropose }
  let p : Proc := { p0 with state := st }
  if p.signatory = p.env.scheduler st.currentHeight st.currentRound then
    let proposal : Block :=
      if st.validBlock.hash ≠ InvalidHash then st.validBlock
      else p.env.blockProposal st.currentHeight st.currentRound
    match p.blockAtHeight (st.currentHeight - 1) with
    | none => Except.error "fail to get previous block from storage"
    | some previousBlock =>
      let messages := st.precommits.queryMessagesByHeightWithHigestRound (st.currentHeight - 1)
      let commits := messages.filter (fun c => decide (c.blockHash = previousBlock.hash))
      let propose : ProposeMsg :=
        { height := st.currentHeight
          round := st.currentRound
          block := proposal
          validRound := st.validRound
          signatory := p.signatory
          latestCommit := { block := previousBlock, precommits := commits } }
      Except.ok (p, [Effect.broadcastPropose propose])
  else
    Except.ok (p, [Effect.scheduleTimeoutPropose st.currentHeight st.currentRound (p.env.timeout StepPropose st.currentRound)])

/-- `Process.syncLatestCommit` (part_000 lines 613-669): the catch-up
routine invoked at the start of the Propose handler.  Note the guard on
line 615 returns when the bundle's block height is strictly greater than
the current height. -/
def syncLatestCommit (p : Proc) (latestCommit : LatestCommit) : EngineResult :=
  if latestCommit.block.height > p.state.currentHeight then
    Except.ok (p, [])
  else if ¬ p.env.isBlockValid latestCommit.block false then
    Except.ok (p, [])
  else
    match p.blockAtHeight 0 with
    | none => Except.error "no genesis block"
    | some baseBlock =>
      let sigs := baseBlock.signatories
      if latestCommit.precommits.all (fun c =>
          p.env.verify c &&
          decide (c.signatory ∈ sigs) &&
          decide (c.blockHash = latestCommit.block.hash) &&
          decide (c.height = latestCommit.block.height) &&
          decide (c.round = latestCommit.block.round)) then
        if (latestCommit.precommits.map (fun c => c.signatory)).dedup.length < 2 * p.state.proposals.f + 1 then
          Except.ok (p, [])
        else
          let p1 : Proc :=
            if ¬ p.blockExistsAtHeight latestCommit.block.height then
              p.insertBlockAtHeight latestCommit.block.height latestCommit.block
            else p
          let st1 : State := { p1.state with currentHeight := latestCommit.block.height + 1, currentRound := 0 }
          let st2 : State := st1.reset latestCommit.block.height
          startRound { p1 with state := st2 } st2.currentRound
      else
        Except.ok (p, [])

/-- Lines 360-383 of `Process.handlePropose`: the first-round propose
rule (prevote on a proposal with no valid round from the scheduled
proposer while in the Propose step). -/
def firstRoundProposeRule (p : Proc) (propose : ProposeMsg) : Proc × List Effect :=
  let st := p.state
  if propose.height = st.currentHeight ∧ propose.round = st.currentRound ∧ propose.validRound = InvalidRound then
    if propose.signatory = p.env.scheduler st.currentHeight st.currentRound then
      if st.currentStep = StepPropose then
        let prevote : PrevoteMsg :=
          if p.env.isBlockValid propose.block true ∧ (st.lockedRound = InvalidRound ∨ st.lockedBlock = propose.block) then
            { height := st.currentHeight, round := st.currentRound, blockHash := propose.block.hash, signatory := p.signatory }
          else
            { height := st.currentHeight, round := st.currentRound, blockHash := InvalidHash, signatory := p.signatory }
        ({ p with state := { st with currentStep := StepPrevote } }, [Effect.broadcastPrevote prevote])
      else (p, [])
    else (p, [])
  else (p, [])

/-- `Process.checkProposeInCurrentHeightAndRoundWithPrevotes` (part_000
lines 512-547). -/
def checkProposeInCurrentHeightAndRoundWithPrevotes (p : Proc) : Proc × List Effect :=
  let st := p.state
  match st.proposals.queryByHeightRoundSignatory st.currentHeight st.currentRound (p.env.scheduler st.currentHeight st.currentRound) with
  | none => (p, [])
  | some propose =>
    if propose.validRound > InvalidRound then
      let n := st.prevotes.queryByHeightRoundBlockHash st.currentHeight propose.validRound propose.blockHash
      if n > 2 * st.prevotes.f then
        if st.currentStep = StepPropose ∧ propose.validRound < st.currentRound then
          let prevote : PrevoteMsg :=
            if p.env.isBlockValid propose.block true ∧ (st.lockedRound ≤ propose.validRound ∨ st.lockedBlock = propose.block) then
              { height := st.currentHeight, round := st.currentRound, blockHash := propose.block.hash, signatory := p.signatory }
            else
              { height := st.currentHeight, round := st.currentRound, blockHash := InvalidHash, signatory := p.signatory }
          ({ p with state := { st with currentStep := StepPrevote } }, [Effect.broadcastPrevote prevote])
        else (p, [])
      else (p, [])
    else (p, [])

/-- `Process.checkProposeInCurrentHeightAndRoundWithPrevotesForTheFirstTime`
(part_000 lines 555-584). -/
def checkProposeInCurrentHeightAndRoundWithPrevotesForTheFirstTime (p : Proc) : Proc × List Effect :=
  let st := p.state
  match st.proposals.queryByHeightRoundSignatory st.currentHeight st.currentRound (p.env.scheduler st.currentHeight st.currentRound) with
  | none => (p, [])
  | some propose =>
    let n := st.prevotes.queryByHeightRoundBlockHash st.currentHeight st.currentRound propose.blockHash
    if n > 2 * st.prevotes.f then
      if st.currentStep ≥ StepPrevote ∧ p.env.isBlockValid propose.block true then
        let st1 : State := { st with validBlock := propose.block, validRound := st.currentRound }
        if st1.currentStep = StepPrevote then
          let st2 : State := { st1 with lockedBlock := propose.block, lockedRound := st1.currentRound, currentStep := StepPrecommit }
          let precommit : PrecommitMsg :=
            { height := st2.currentHeight, round := st2.currentRound, blockHash := propose.block.hash, signatory := p.signatory }
          ({ p with state := st2 }, [Effect.broadcastPrecommit precommit])
        else
          ({ p with state := st1 }, [])
      else (p, [])
    else (p, [])

/-- `Process.checkProposeInCurrentHeightWithPrecommits` (part_000 lines
586-611): the commit check at a given round. -/
def checkProposeInCurrentHeightWithPrecommits (p : Proc) (round : Round) : EngineResult :=
  let st := p.state
  match st.proposals.queryByHeightRoundSignatory st.currentHeight round (p.env.scheduler st.currentHeight round) with
  | none => Except.ok (p, [])
  | some propose =>
    let n := st.precommits.queryByHeightRoundBlockHash st.currentHeight round propose.blockHash
    if n > 2 * st.precommits.f then
      if ¬ p.blockExistsAtHeight st.currentHeight then
        if p.env.isBlockValid propose.block true then
          let p1 := p.insertBlockAtHeight st.currentHeight propose.block
          let st1 : State := { p1.state with currentHeight := p1.state.currentHeight + 1 }
          let st2 : State := st1.reset (st1.currentHeight - 1)
          let obsEffs : List Effect :=
            if p1.env.hasObserver then [Effect.didCommitBlock (st1.currentHeight - 1)] else []
          match startRound { p1 with state := st2 } 0 with
          | Except.error e => Except.error e
          | Except.ok (p2, effs) => Except.ok (p2, obsEffs ++ effs)
        else Except.ok (p, [])
      else Except.ok (p, [])
    else Except.ok (p, [])

/-- `Process.handlePropose` (part_000 lines 353-395). -/
def handlePropose (p : Proc) (propose : ProposeMsg) : EngineResult :=
  match syncLatestCommit p propose.latestCommit with
  | Except.error e => Except.error e
  | Except.ok (pa, effs0) =>
    let ins := pa.state.proposals.insert propose
    let n := ins.2.1
    let firstTime := ins.2.2.1
    let pb : Proc := { pa with state := { pa.state with proposals := ins.1 } }
    let rb := firstRoundProposeRule pb propose
    let pc := rb.1
    let effs1 := rb.2
    let skipRes : EngineResult :=
      if n > pc.state.prevotes.f ∧ propose.height = pc.state.currentHeight ∧ propose.round > pc.state.currentRound then
        startRound pc propose.round
      else Except.ok (pc, [])
    match skipRes with
    | Except.error e => Except.error e
    | Except.ok (pd, effs2) =>
      let rc := checkProposeInCurrentHeightAndRoundWithPrevotes pd
      let pe := rc.1
      let effs3 := rc.2
      let rd := if firstTime then checkProposeInCurrentHeightAndRoundWithPrevotesForTheFirstTime pe else (pe, [])
      let pf := rd.1
      let effs4 := rd.2
      match checkProposeInCurrentHeightWithPrecommits pf propose.round with
      | Except.error e => Except.error e
      | Except.ok (pg, effs5) => Except.ok (pg, effs0 ++ effs1 ++ effs2 ++ effs3 ++ effs4 ++ effs5)

/-- `Process.handlePrevote` (part_000 lines 397-426). -/
def handlePrevote (p : Proc) (prevote : PrevoteMsg) : EngineResult :=
  let ins := p.state.prevotes.insert prevote
  let n := ins.2.1
  let firstTimeExceeding2F := ins.2.2.2.2
  let pa : Proc := { p with state := { p.state with prevotes := ins.1 } }
  let effsA : List Effect :=
    if firstTimeExceeding2F ∧ prevote.height = pa.state.currentHeight ∧ prevote.round = pa.state.currentRound ∧ pa.state.currentStep = StepPrevote then
      [Effect.scheduleTimeoutPrevote pa.state.currentHeight pa.state.currentRound (pa.env.timeout StepPrevote pa.state.currentRound)]
    else []
  let rb : Proc × List Effect :=
    let n2 := pa.state.prevotes.queryByHeightRoundBlockHash pa.state.currentHeight pa.state.currentRound InvalidHash
    if n2 > 2 * pa.state.prevotes.f ∧ pa.state.currentStep = StepPrevote then
      let precommit : PrecommitMsg :=
        { height := pa.state.currentHeight, round := pa.state.currentRound, blockHash := InvalidHash, signatory := pa.signatory }
      ({ pa with state := { pa.state with currentStep := StepPrecommit } }, [Effect.broadcastPrecommit precommit])
    else (pa, [])
  let pb := rb.1
  let effsB := rb.2
  let skipRes : EngineResult :=
    if n > pb.state.prevotes.f ∧ prevote.height = pb.state.currentHeight ∧ prevote.round > pb.state.currentRound then
      startRound pb prevote.round
    else Except.ok (pb, [])
  match skipRes with
  | Except.error e => Except.error e
  | Except.ok (pc, effsC) =>
    let rd := checkProposeInCurrentHeightAndRoundWithPrevotes pc
    let pd := rd.1
    let effsD := rd.2
    let re := if firstTimeExceeding2F then checkProposeInCurrentHeightAndRoundWithPrevotesForTheFirstTime pd else (pd, [])
    Except.ok (re.1, effsA ++ effsB ++ effsC ++ effsD ++ re.2)

/-- `Process.handlePrecommit` (part_000 lines 428-442). -/
def handlePrecommit (p : Proc) (precommit : PrecommitMsg) : EngineResult :=
  let ins := p.state.precommits.insert precommit
  let n := ins.2.1
  let firstTimeExceeding2F := ins.2.2.2.2
  let pa : Proc := { p with state := { p.state with precommits := ins.1 } }
  let effsA : List Effect :=
    if firstTimeExceeding2F ∧ precommit.height = pa.state.currentHeight ∧ precommit.round = pa.state.currentRound then
      [Effect.scheduleTimeoutPrecommit pa.state.currentHeight pa.state.currentRound (pa.env.timeout StepPrecommit pa.state.currentRound)]
    else []
  let skipRes : EngineResult :=
    if n > pa.state.precommits.f ∧ precommit.height = pa.state.currentHeight ∧ precommit.round > pa.state.currentRound then
      startRound pa precommit.round
    else Except.ok (pa, [])
  match skipRes with
  | Except.error e => Except.error e
  | Except.ok (pb, effsB) =>
    match checkProposeInCurrentHeightWithPrecommits pb precommit.round with
    | Except.error e => Except.error e
    | Except.ok (pc, effsC) => Except.ok (pc, effsA ++ effsB ++ effsC)

/-- `Process.timeoutPropose` (part_000 lines 447-458). -/
def timeoutPropose (p : Proc) (height : Height) (round : Round) : Proc × List Effect :=
  if height = p.state.currentHeight ∧ round = p.state.currentRound ∧ p.state.currentStep = StepPropose then
    let prevote : PrevoteMsg :=
      { height := p.state.currentHeight, round := p.state.currentRound, blockHash := InvalidHash, signatory := p.signatory }
    ({ p with state := { p.state with currentStep := StepPrevote } }, [Effect.broadcastPrevote prevote])
  else (p, [])

/-- `Process.timeoutPrevote` (part_000 lines 460-471). -/
def timeoutPrevote (p : Proc) (height : Height) (round : Round) : Proc × List Effect :=
  if height = p.state.currentHeight ∧ round = p.state.currentRound ∧ p.state.currentStep = StepPrevote then
    let precommit : PrecommitMsg :=
      { height := p.state.currentHeight, round := p.state.currentRound, blockHash := InvalidHash, signatory := p.signatory }
    ({ p with state := { p.state with currentStep := StepPrecommit } }, [Effect.broadcastPrecommit precommit])
  else (p, [])

/-- `Process.timeoutPrecommit` (part_000 lines 473-477). -/
def timeoutPrecommit (p : Proc) (height : Height) (round : Round) : EngineResult :=
  if height = p.state.currentHeight ∧ round = p.state.currentRound then
    startRound p (p.state.currentRound + 1)
  else Except.ok (p, [])

/-- Little-endian byte decomposition of a natural number into `k` bytes. -/
def natToBytesLE : Nat → Nat → List Nat
  | 0, _ => []
  | k + 1, n => (n % 256) :: natToBytesLE k (n / 256)

/-- Little-endian recomposition of a byte list into a natural number. -/
def bytesToNatLE : List Nat → Nat
  | [] => 0
  | b :: bs => b + 256 * bytesToNatLE bs

/-- The 8-byte little-endian two's-complement encoding of an `int64`
value (`binary.Write` with `binary.LittleEndian`). -/
def toLE64 (v : Int) : List Nat := natToBytesLE 8 ((v % (2 ^ 64 : Int)).toNat)

/-- Decoding of an 8-byte little-endian two's-complement `int64`. -/
def fromLE64 (bs : List Nat) : Int :=
  let n := bytesToNatLE bs
  if n < 2 ^ 63 then (n : Int) else (n : Int) - 2 ^ 64

/-- `binary.Read` of an `int64`: consumes 8 bytes or fails. -/
def readInt64 (bs : List Nat) : Option (Int × List Nat) :=
  if 8 ≤ bs.length then some (fromLE64 (bs.take 8), bs.drop 8) else none

/-- `binary.Read` of a `uint64`: consumes 8 bytes or fails. -/
def readU64 (bs : List Nat) : Option (Nat × List Nat) :=
  if 8 ≤ bs.length then some (bytesToNatLE (bs.take 8), bs.drop 8) else none

/-- `bytes.Buffer.Read` into a fresh zeroed slice of length `n`: reads up
to `n` bytes, errs only when `n > 0` and the buffer is empty; a short
read leaves the tail of the slice zeroed and reports no error (the source
ignores the returned byte count). -/
def bufRead (n : Nat) (bs : List Nat) : Option (List Nat × List Nat) :=
  if n = 0 then some ([], bs)
  else if bs.isEmpty then none
  else some (bs.take n ++ List.replicate (n - bs.length) 0, bs.drop n)

/-- The binary encoders/decoders of the fields whose own wire format is
external to part_000: `block.Block.MarshalBinary`/`UnmarshalBinary` and
the three tallies' `MarshalBinary`/`UnmarshalBinary` (the spec's
serialization claim is conditional on these round-tripping). -/
structure Codecs where
  encBlock : Block → List Nat
  decBlock : List Nat → Except String Block
  encProposals : Inbox ProposeMsg → List Nat
  decProposals : List Nat → Except String (Inbox ProposeMsg)
  encPrevotes : Inbox PrevoteMsg → List Nat
  decPrevotes : List Nat → Except String (Inbox PrevoteMsg)
  encPrecommits : Inbox PrecommitMsg → List Nat
  decPrecommits : List Nat → Except String (Inbox PrecommitMsg)

/-- `Process.MarshalBinary` (part_000 lines 130-201): little-endian
currentHeight, currentRound, the one-byte currentStep, then the
length-prefixed locked block, lockedRound, the length-prefixed valid
block, validRound, and the three length-prefixed tallies. -/
def marshalBinary (st : State) (c : Codecs) : List Nat :=
  toLE64 st.currentHeight ++
    (toLE64 st.currentRound ++
      ([st.currentStep % 256] ++
        (natToBytesLE 8 ((c.encBlock st.lockedBlock).length % 2 ^ 64) ++
          (c.encBlock st.lockedBlock ++
            (toLE64 st.lockedRound ++
              (natToBytesLE 8 ((c.encBlock st.validBlock).length % 2 ^ 64) ++
                (c.encBlock st.validBlock ++
                  (toLE64 st.validRound ++
                    (natToBytesLE 8 ((c.encProposals st.proposals).length % 2 ^ 64) ++
                      (c.encProposals st.proposals ++
                        (natToBytesLE 8 ((c.encPrevotes st.prevotes).length % 2 ^ 64) ++
                          (c.encPrevotes st.prevotes ++
                            (natToBytesLE 8 ((c.encPrecommits st.precommits).length % 2 ^ 64) ++
                              c.encPrecommits st.precommits)))))))))))))

/-- `Process.UnmarshalBinary` (part_000 lines 205-277): reads the same
layout back, overwriting the fields of the receiver state one by one as
they are decoded; a failure part-way through returns an error while the
fields already decoded keep their new values. -/
def unmarshalBinary (st0 : State) (c : Codecs) (data : List Nat) : State × Option String :=
  match readInt64 data with
  | none => (st0, some "cannot read CurrentHeight")
  | some (h, b1) =>
    let st1 : State := { st0 with currentHeight := h }
    match readInt64 b1 with
    | none => (st1, some "cannot read CurrentRound")
    | some (r, b2) =>
      let st2 : State := { st1 with currentRound := r }
      match b2 with
      | [] => (st2, some "cannot read CurrentStep")
      | sb :: b3 =>
        let st3 : State := { st2 with currentStep := sb }
        match readU64 b3 with
        | none => (st3, some "cannot read LockedBlock len")
        | some (nb, b4) =>
          match bufRead nb b4 with
          | none => (st3, some "cannot read LockedBlock data")
          | some (lbBytes, b5) =>
            match c.decBlock lbBytes with
            | Except.error e => (st3, some e)
            | Except.ok lb =>
              let st4 : State := { st3 with lockedBlock := lb }
              match readInt64 b5 with
              | none => (st4, some "cannot read LockedRound")
              | some (lr, b6) =>
                let st5 : State := { st4 with lockedRound := lr }
                match readU64 b6 with
                | none => (st5, some "cannot read ValidBlock len")
                | some (nb2, b7) =>
                  match bufRead nb2 b7 with
                  | none => (st5, some "cannot read ValidBlock data")
                  | some (vbBytes, b8) =>
                    match c.decBlock vbBytes with
                    | Except.error e => (st5, some e)
                    | Except.ok vb =>
                      let st6 : State := { st5 with validBlock := vb }
                      match readInt64 b8 with
                      | none => (st6, some "cannot read ValidRound")
                      | some (vr, b9) =>
                        let st7 : State := { st6 with validRound := vr }
                        match readU64 b9 with
                        | none => (st7, some "cannot read Proposals len")
                        | some (nb3, b10) =>
                          match bufRead nb3 b10 with
                          | none => (st7, some "cannot read Proposals data")
                          | some (prBytes, b11) =>
                            match c.decProposals prBytes with
                            | Except.error e => (st7, some e)
                            | Except.ok prs =>
                              let st8 : State := { st7 with proposals := prs }
                              match readU64 b11 with
                              | none => (st8, some "cannot read Prevotes len")
                              | some (nb4, b12) =>
                                match bufRead nb4 b12 with
                                | none => (st8, some "cannot read Prevotes data")
                                | some (pvBytes, b13) =>
                                  match c.decPrevotes pvBytes with
                                  | Except.error e => (st8, some e)
                                  | Except.ok pvs =>
                                    let st9 : State := { st8 with prevotes := pvs }
                                    match readU64 b13 with
                                    | none => (st9, some "cannot read Precommits len")
                                    | some (nb5, b14) =>
                                      match bufRead nb5 b14 with
                                      | none => (st9, some "cannot read Precommits data")
                                      | some (pcBytes, _) =>
                                        match c.decPrecommits pcBytes with
                                        | Except.error e => (st9, some e)
                                        | Except.ok pcs =>
                                          ({ st9 with precommits := pcs }, none)

/-- A replica-harness inbound vote as filtered by `replica.Run`
(src/replica/replica.go): only its height and its sender are consulted. -/
structure RPropose where
  height : Height
  sender : Signatory
deriving DecidableEq, Repr

structure RPrevote where
  height : Height
  sender : Signatory
deriving DecidableEq, Repr

structure RPrecommit where
  height : Height
  sender : Signatory
deriving DecidableEq, Repr

/-- A message stored in the replica's message queue. -/
inductive RMsg where
  | propose (m : RPropose)
  | prevote (m : RPrevote)
  | precommit (m : RPrecommit)
deriving DecidableEq, Repr

/-- The replica harness state relevant to inbound filtering: the wrapped
process's current height, the allowed-signatory set, and the message
queue. -/
structure Replica where
  procCurrentHeight : Height
  procsAllowed : List Signatory
  mq : List RMsg
deriving DecidableEq, Repr

/-- `Replica.filterHeight` (replica.go lines 223-225). -/
def Replica.filterHeight (rep : Replica) (height : Height) : Bool :=
  height ≥ rep.procCurrentHeight

/-- `Replica.filterFrom` (replica.go lines 227-229). -/
def Replica.filterFrom (rep : Replica) (sender : Signatory) : Bool :=
  rep.procsAllowed.contains sender

/-- The propose branch of `Replica.Run`'s select loop (replica.go lines
123-130): drop unless both filters pass, else insert into the message
queue (`mq.InsertPropose` is not under src/ and is modelled from the spec
as enqueueing the message). -/
def Replica.receivePropose (rep : Replica) (m : RPropose) : Replica :=
  if rep.filterHeight m.height then
    if rep.filterFrom m.sender then { rep with mq := rep.mq ++ [RMsg.propose m] }
    else rep
  else rep

/-- The prevote branch of `Replica.Run`'s select loop (replica.go lines
131-138). -/
def Replica.receivePrevote (rep : Replica) (m : RPrevote) : Replica :=
  if rep.filterHeight m.height then
    if rep.filterFrom m.sender then { rep with mq := rep.mq ++ [RMsg.prevote m] }
    else rep
  else rep

/-- The precommit branch of `Replica.Run`'s select loop (replica.go lines
139-146). -/
def Replica.receivePrecommit (rep : Replica) (m : RPrecommit) : Replica :=
  if rep.filterHeight m.height then
    if rep.filterFrom m.sender then { rep with mq := rep.mq ++ [RMsg.precommit m] }
    else rep
  else rep

/-- Auxiliary: whenever `startRound` does not hit its missing-previous-block
panic, it returns the process with the round set and the step forced to
Propose, and emits no Observer notification. -/
theorem startRound_ok (p : Proc) (r : Round)
    (h : p.signatory ≠ p.env.scheduler p.state.currentHeight r ∨
      ∃ b, p.blockAtHeight (p.state.currentHeight - 1) = some b) :
    ∃ effs, startRound p r =
        Except.ok ({ p with state := { p.state with currentRound := r, currentStep := StepPropose } }, effs) ∧
      ∀ h2, Effect.didCommitBlock h2 ∉ effs := by
  unfold startRound
  by_cases hsig : p.signatory = p.env.scheduler p.state.currentHeight r
  · rcases h with h | ⟨b, hb⟩
    · exact absurd hsig h
    · rw [if_pos hsig]
      have hb2 : ({ p with state := { p.state with currentRound := r, currentStep := StepPropose } } : Proc).blockAtHeight (p.state.currentHeight - 1) = some b := hb
      rw [hb2]
      exact ⟨_, rfl, by intro h2; simp⟩
  · rw [if_neg hsig]
    exact ⟨_, rfl, by intro h2; simp⟩

/-- The guard of the commit check, read off the source of
`checkProposeInCurrentHeightWithPrecommits`: a proposal from the
scheduled proposer exists at (currentHeight, round), strictly more than
2F precommits at (currentHeight, round) carry that proposal's block
hash, no block is persisted at currentHeight, and the block is valid. -/
def commitCond (p : Proc) (round : Round) : Bool :=
  match p.state.proposals.queryByHeightRoundSignatory p.state.currentHeight round (p.env.scheduler p.state.currentHeight round) with
  | none => false
  | some propose =>
    decide (p.state.precommits.queryByHeightRoundBlockHash p.state.currentHeight round propose.blockHash > 2 * p.state.precommits.f)
      && !(p.blockExistsAtHeight p.state.currentHeight)
      && p.env.isBlockValid propose.block true

/-- C3: the commit check at round `r` persists the proposed block at
currentHeight, increments currentHeight, resets state (round 0, step
Propose via StartRound(0)), and notifies the Observer exactly once, if
and only if a proposal from the scheduled proposer exists at
(currentHeight, r), strictly more than 2F precommits at (currentHeight,
r) carry exactly that proposal's block hash, no block is persisted at
currentHeight, and the block is valid; when the guard fails (in
particular when 2f+1 precommits are split across different hashes so
that no single hash exceeds 2F) the routine changes nothing and emits
nothing. -/
theorem c3_commit_rule (p : Proc) (round : Round) :
    (commitCond p round = false → checkProposeInCurrentHeightWithPrecommits p round = Except.ok (p, []))
    ∧ (commitCond p round = true → p.env.hasObserver = true →
        ∃ propose q effs,
          p.state.proposals.queryByHeightRoundSignatory p.state.currentHeight round (p.env.scheduler p.state.currentHeight round) = some propose ∧
          checkProposeInCurrentHeightWithPrecommits p round = Except.ok (q, effs) ∧
          q.state.currentHeight = p.state.currentHeight + 1 ∧
          q.state.currentRound = 0 ∧
          q.state.currentStep = StepPropose ∧
          q.blockAtHeight p.state.currentHeight = some propose.block ∧
          effs.count (Effect.didCommitBlock p.state.currentHeight) = 1) := by
  cases hq : p.state.proposals.queryByHeightRoundSignatory p.state.currentHeight round (p.env.scheduler p.state.currentHeight round) with
  | none =>
    constructor
    · intro _
      simp only [checkProposeInCurrentHeightWithPrecommits, hq]
    · intro hc
      unfold commitCond at hc
      rw [hq] at hc
      simp at hc
  | some propose =>
    constructor
    · intro hc
      unfold commitCond at hc
      rw [hq] at hc
      simp only [Bool.and_eq_false_iff, decide_eq_false_iff_not, Bool.not_eq_false'] at hc
      simp only [checkProposeInCurrentHeightWithPrecommits, hq]
      by_cases h1 : p.state.precommits.queryByHeightRoundBlockHash p.state.currentHeight round propose.blockHash > 2 * p.state.precommits.f
      · rw [if_pos h1]
        by_cases h2 : p.blockExistsAtHeight p.state.currentHeight
        · rw [if_neg (by simpa using h2)]
        · rw [if_pos (by simpa using h2)]
          have h3 : p.env.isBlockValid propose.block true = false := by
            rcases hc with (hc | hc) | hc
            · exact absurd h1 (by simpa using hc)
            · exact absurd hc (by simpa using h2)
            · exact hc
          rw [h3]
          simp
      · rw [if_neg h1]
    · intro hc hobs
      unfold commitCond at hc
      rw [hq] at hc
      simp only [Bool.and_eq_true, decide_eq_true_eq, Bool.not_eq_true'] at hc
      obtain ⟨⟨h1, h2⟩, h3⟩ := hc
      set p1 := p.insertBlockAtHeight p.state.currentHeight propose.block with hp1
      set st2 := ({ p1.state with currentHeight := p1.state.currentHeight + 1 } : State).reset
        (p1.state.currentHeight + 1 - 1) with hst2
      have hheq : st2.currentHeight = p.state.currentHeight + 1 := by
        simp [hst2, State.reset, hp1, Proc.insertBlockAtHeight]
      have hprev : (⟨p1.env, p1.signatory, p1.blockchain, st2⟩ : Proc).blockAtHeight
          (st2.currentHeight - 1) = some propose.block := by
        rw [hheq]
        simp [Proc.blockAtHeight, hp1, Proc.insertBlockAtHeight]
      obtain ⟨effs, hsr, hno⟩ := startRound_ok ⟨p1.env, p1.signatory, p1.blockchain, st2⟩ 0
        (Or.inr ⟨propose.block, by simpa using hprev⟩)
      refine ⟨propose,
        ⟨p1.env, p1.signatory, p1.blockchain, { st2 with currentRound := 0, currentStep := StepPropose }⟩,
        Effect.didCommitBlock (p.state.currentHeight) :: effs, rfl, ?_, ?_, ?_, ?_, ?_, ?_⟩
      · simp only [checkProposeInCurrentHeightWithPrecommits, hq]
        rw [if_pos h1, if_pos (by simpa using h2), h3]
        show (match startRound (⟨p1.env, p1.signatory, p1.blockchain, st2⟩ : Proc) 0 with
          | Except.error e => Except.error e
          | Except.ok (p2, effs2) =>
            Except.ok (p2,
              (if p1.env.hasObserver = true then [Effect.didCommitBlock (p1.state.currentHeight + 1 - 1)] else []) ++ effs2)) = _
        rw [hsr]
        have hobs1 : p1.env.hasObserver = true := hobs
        rw [if_pos hobs1]
        have hc1 : p1.state.currentHeight + 1 - 1 = p.state.currentHeight := by
          simp [hp1, Proc.insertBlockAtHeight]
        rw [hc1]
        rfl
      · simp [hheq]
      · simp [hst2, State.reset]
      · simp [hst2, State.reset]
      · simp [Proc.blockAtHeight, hp1, Proc.insertBlockAtHeight]
      · have h0 : effs.count (Effect.didCommitBlock p.state.currentHeight) = 0 :=
          List.count_eq_zero.mpr (hno _)
        simp [List.count_cons, h0]

/-- C5: the first-round propose rule fires exactly when the Propose has
the current height and round, no valid round, comes from the scheduled
proposer, and the step is Propose; it then broadcasts a Prevote for the
block's hash when the block is valid and the process is unlocked or
locked on that block, and a nil Prevote otherwise, and moves the step to
Prevote; when any condition fails it broadcasts nothing and leaves the
state unchanged. -/
theorem c5_first_round_propose_rule (p : Proc) (m : ProposeMsg) :
    (¬((m.height = p.state.currentHeight ∧ m.round = p.state.currentRound ∧ m.validRound = InvalidRound) ∧
        m.signatory = p.env.scheduler p.state.currentHeight p.state.currentRound ∧
        p.state.currentStep = StepPropose) →
      firstRoundProposeRule p m = (p, []))
    ∧ ((m.height = p.state.currentHeight ∧ m.round = p.state.currentRound ∧ m.validRound = InvalidRound) →
        m.signatory = p.env.scheduler p.state.currentHeight p.state.currentRound →
        p.state.currentStep = StepPropose →
        firstRoundProposeRule p m =
          ({ p with state := { p.state with currentStep := StepPrevote } },
            [Effect.broadcastPrevote
              (if p.env.isBlockValid m.block true = true ∧ (p.state.lockedRound = InvalidRound ∨ p.state.lockedBlock = m.block) then
                { height := p.state.currentHeight, round := p.state.currentRound, blockHash := m.block.hash, signatory := p.signatory }
              else
                { height := p.state.currentHeight, round := p.state.currentRound, blockHash := InvalidHash, signatory := p.signatory })])) := by
  constructor
  · intro hneg
    simp only [firstRoundProposeRule]
    by_cases hA : m.height = p.state.currentHeight ∧ m.round = p.state.currentRound ∧ m.validRound = InvalidRound
    · rw [if_pos hA]
      by_cases hB : m.signatory = p.env.scheduler p.state.currentHeight p.state.currentRound
      · rw [if_pos hB]
        by_cases hC : p.state.currentStep = StepPropose
        · exact absurd ⟨hA, hB, hC⟩ hneg
        · rw [if_neg hC]
      · rw [if_neg hB]
    · rw [if_neg hA]
  · intro hA hB hC
    simp only [firstRoundProposeRule]
    rw [if_pos hA, if_pos hB, if_pos hC]

/-- C4: on a proposal from the scheduled proposer at (currentHeight,
currentRound) together with a prevote quorum of more than 2F for its
block hash at the same (currentHeight, currentRound), with the block
valid: if the step is Prevote, the valid and locked block/round are set
to the proposal's block and the current round, the step moves to
Precommit, and a Precommit for the block's hash is broadcast; if the
step is Precommit, only validBlock and validRound change and nothing is
broadcast. -/
theorem c4_first_time_prevote_quorum (p : Proc) (propose : ProposeMsg)
    (hq : p.state.proposals.queryByHeightRoundSignatory p.state.currentHeight p.state.currentRound
      (p.env.scheduler p.state.currentHeight p.state.currentRound) = some propose)
    (hn : p.state.prevotes.queryByHeightRoundBlockHash p.state.currentHeight p.state.currentRound propose.blockHash >
      2 * p.state.prevotes.f)
    (hv : p.env.isBlockValid propose.block true = true) :
    (p.state.currentStep = StepPrevote →
      checkProposeInCurrentHeightAndRoundWithPrevotesForTheFirstTime p =
        ({ p with state := { p.state with
            validBlock := propose.block, validRound := p.state.currentRound,
            lockedBlock := propose.block, lockedRound := p.state.currentRound,
            currentStep := StepPrecommit } },
          [Effect.broadcastPrecommit
            { height := p.state.currentHeight, round := p.state.currentRound,
              blockHash := propose.block.hash, signatory := p.signatory }]))
    ∧ (p.state.currentStep = StepPrecommit →
      checkProposeInCurrentHeightAndRoundWithPrevotesForTheFirstTime p =
        ({ p with state := { p.state with
            validBlock := propose.block, validRound := p.state.currentRound } }, [])) := by
  constructor
  · intro hstep
    simp only [checkProposeInCurrentHeightAndRoundWithPrevotesForTheFirstTime, hq]
    rw [if_pos hn]
    rw [if_pos ⟨by rw [hstep], hv⟩]
    have : ({ p.state with validBlock := propose.block, validRound := p.state.currentRound } : State).currentStep = StepPrevote := hstep
    rw [if_pos this]
  · intro hstep
    simp only [checkProposeInCurrentHeightAndRoundWithPrevotesForTheFirstTime, hq]
    rw [if_pos hn]
    rw [if_pos ⟨by rw [hstep]; norm_num [StepPrevote, StepPrecommit], hv⟩]
    have : ({ p.state with validBlock := propose.block, validRound := p.state.currentRound } : State).currentStep ≠ StepPrevote := by
      show p.state.currentStep ≠ StepPrevote
      rw [hstep]
      norm_num [StepPrevote, StepPrecommit]
    rw [if_neg this]

/-- C7: each timeout handler is a no-op when its stamped (height, round)
(and, for the propose and prevote timeouts, the corresponding step) no
longer matches the current state; when it still matches, the propose
timeout broadcasts a nil Prevote and moves to Prevote, the prevote
timeout broadcasts a nil Precommit and moves to Precommit, and the
precommit timeout calls StartRound(currentRound + 1) regardless of the
step. -/
theorem c7_timeout_handlers (p : Proc) (h : Height) (r : Round) :
    (¬(h = p.state.currentHeight ∧ r = p.state.currentRound ∧ p.state.currentStep = StepPropose) →
      timeoutPropose p h r = (p, []))
    ∧ ((h = p.state.currentHeight ∧ r = p.state.currentRound ∧ p.state.currentStep = StepPropose) →
      timeoutPropose p h r =
        ({ p with state := { p.state with currentStep := StepPrevote } },
          [Effect.broadcastPrevote
            { height := p.state.currentHeight, round := p.state.currentRound,
              blockHash := InvalidHash, signatory := p.signatory }]))
    ∧ (¬(h = p.state.currentHeight ∧ r = p.state.currentRound ∧ p.state.currentStep = StepPrevote) →
      timeoutPrevote p h r = (p, []))
    ∧ ((h = p.state.currentHeight ∧ r = p.state.currentRound ∧ p.state.currentStep = StepPrevote) →
      timeoutPrevote p h r =
        ({ p with state := { p.state with currentStep := StepPrecommit } },
          [Effect.broadcastPrecommit
            { height := p.state.currentHeight, round := p.state.currentRound,
              blockHash := InvalidHash, signatory := p.signatory }]))
    ∧ (¬(h = p.state.currentHeight ∧ r = p.state.currentRound) →
      timeoutPrecommit p h r = Except.ok (p, []))
    ∧ ((h = p.state.currentHeight ∧ r = p.state.currentRound) →
      timeoutPrecommit p h r = startRound p (p.state.currentRound + 1)) := by
  refine ⟨?_, ?_, ?_, ?_, ?_, ?_⟩
  · intro hneg
    simp only [timeoutPropose]
    rw [if_neg hneg]
  · intro hpos
    simp only [timeoutPropose]
    rw [if_pos hpos]
  · intro hneg
    simp only [timeoutPrevote]
    rw [if_neg hneg]
  · intro hpos
    simp only [timeoutPrevote]
    rw [if_pos hpos]
  · intro hneg
    simp only [timeoutPrecommit]
    rw [if_neg hneg]
  · intro hpos
    simp only [timeoutPrecommit]
    rw [if_pos hpos]

/-- C9: the replica harness inserts an inbound Propose, Prevote, or
Precommit into its message queue exactly when the message's height is at
least the process's current height and its sender is in the known
signatory set; otherwise it is dropped without any state change. -/
theorem c9_replica_filter (rep : Replica) (mp : RPropose) (mv : RPrevote) (mc : RPrecommit) :
    ((mp.height ≥ rep.procCurrentHeight ∧ mp.sender ∈ rep.procsAllowed) →
      rep.receivePropose mp = { rep with mq := rep.mq ++ [RMsg.propose mp] })
    ∧ (¬(mp.height ≥ rep.procCurrentHeight ∧ mp.sender ∈ rep.procsAllowed) →
      rep.receivePropose mp = rep)
    ∧ ((mv.height ≥ rep.procCurrentHeight ∧ mv.sender ∈ rep.procsAllowed) →
      rep.receivePrevote mv = { rep with mq := rep.mq ++ [RMsg.prevote mv] })
    ∧ (¬(mv.height ≥ rep.procCurrentHeight ∧ mv.sender ∈ rep.procsAllowed) →
      rep.receivePrevote mv = rep)
    ∧ ((mc.height ≥ rep.procCurrentHeight ∧ mc.sender ∈ rep.procsAllowed) →
      rep.receivePrecommit mc = { rep with mq := rep.mq ++ [RMsg.precommit mc] })
    ∧ (¬(mc.height ≥ rep.procCurrentHeight ∧ mc.sender ∈ rep.procsAllowed) →
      rep.receivePrecommit mc = rep) := by
  refine ⟨?_, ?_, ?_, ?_, ?_, ?_⟩
  · intro ⟨hh, hs⟩
    simp only [Replica.receivePropose, Replica.filterHeight, Replica.filterFrom]
    rw [if_pos (by simpa using hh), if_pos (by simpa using hs)]
  · intro hneg
    simp only [Replica.receivePropose, Replica.filterHeight, Replica.filterFrom]
    by_cases hh : mp.height ≥ rep.procCurrentHeight
    · rw [if_pos (by simpa using hh)]
      have hs : mp.sender ∉ rep.procsAllowed := fun hs => hneg ⟨hh, hs⟩
      rw [if_neg (by simpa using hs)]
    · rw [if_neg (by simpa using hh)]
  · intro ⟨hh, hs⟩
    simp only [Replica.receivePrevote, Replica.filterHeight, Replica.filterFrom]
    rw [if_pos (by simpa using hh), if_pos (by simpa using hs)]
  · intro hneg
    simp only [Replica.receivePrevote, Replica.filterHeight, Replica.filterFrom]
    by_cases hh : mv.height ≥ rep.procCurrentHeight
    · rw [if_pos (by simpa using hh)]
      have hs : mv.sender ∉ rep.procsAllowed := fun hs => hneg ⟨hh, hs⟩
      rw [if_neg (by simpa using hs)]
    · rw [if_neg (by simpa using hh)]
  · intro ⟨hh, hs⟩
    simp only [Replica.receivePrecommit, Replica.filterHeight, Replica.filterFrom]
    rw [if_pos (by simpa using hh), if_pos (by simpa using hs)]
  · intro hneg
    simp only [Replica.receivePrecommit, Replica.filterHeight, Replica.filterFrom]
    by_cases hh : mc.height ≥ rep.procCurrentHeight
    · rw [if_pos (by simpa using hh)]
      have hs : mc.sender ∉ rep.procsAllowed := fun hs => hneg ⟨hh, hs⟩
      rw [if_neg (by simpa using hs)]
    · rw [if_neg (by simpa using hh)]

/-- Auxiliary: inserting into a tally does not change its `f`. -/
theorem Inbox.insert_f [Vote α] (inbox : Inbox α) (m : α) : (inbox.insert m).1.f = inbox.f := by
  unfold Inbox.insert
  by_cases h : inbox.msgs.any (fun m2 => decide (Vote.height m2 = Vote.height m ∧ Vote.round m2 = Vote.round m ∧ Vote.signatory m2 = Vote.signatory m))
  · rw [if_pos h]
  · rw [if_neg h]

/-- Auxiliary: when the process is not the scheduled proposer,
`startRound` sets the round, forces the step to Propose, and schedules a
propose timeout. -/
theorem startRound_nonproposer (p : Proc) (r : Round)
    (hsig : p.signatory ≠ p.env.scheduler p.state.currentHeight r) :
    startRound p r = Except.ok
      ({ p with state := { p.state with currentRound := r, currentStep := StepPropose } },
        [Effect.scheduleTimeoutPropose p.state.currentHeight r (p.env.timeout StepPropose r)]) := by
  unfold startRound
  rw [if_neg hsig]

/-- Auxiliary: with no proposal from the scheduled proposer at
(currentHeight, currentRound), the prevote check is a no-op. -/
theorem checkPrevotes_no_proposal (p : Proc)
    (hq : p.state.proposals.queryByHeightRoundSignatory p.state.currentHeight p.state.currentRound
      (p.env.scheduler p.state.currentHeight p.state.currentRound) = none) :
    checkProposeInCurrentHeightAndRoundWithPrevotes p = (p, []) := by
  simp only [checkProposeInCurrentHeightAndRoundWithPrevotes, hq]

/-- Auxiliary: with no proposal from the scheduled proposer at
(currentHeight, currentRound), the first-time prevote check is a no-op. -/
theorem checkFirstTime_no_proposal (p : Proc)
    (hq : p.state.proposals.queryByHeightRoundSignatory p.state.currentHeight p.state.currentRound
      (p.env.scheduler p.state.currentHeight p.state.currentRound) = none) :
    checkProposeInCurrentHeightAndRoundWithPrevotesForTheFirstTime p = (p, []) := by
  simp only [checkProposeInCurrentHeightAndRoundWithPrevotesForTheFirstTime, hq]

/-- C6 (amended): on f+1 evidence at a higher round of the current
height, the Prevote handler calls StartRound(m.round) but does not stop
there: the check routines still run afterwards.  When no proposal from
the scheduled proposer exists at (currentHeight, m.round) and the
nil-prevote-quorum rule does not fire, those checks are no-ops and the
handler's net result is exactly that of StartRound(m.round) on the
post-insertion state: the process is left at (currentHeight, m.round) in
step Propose with only the propose-timeout scheduling of StartRound. -/
theorem c6_skip_ahead_amended (p : Proc) (m : PrevoteMsg)
    (hn : (p.state.prevotes.insert m).2.1 > p.state.prevotes.f)
    (hh : m.height = p.state.currentHeight)
    (hr : m.round > p.state.currentRound)
    (hnil : ¬((p.state.prevotes.insert m).1.queryByHeightRoundBlockHash p.state.currentHeight p.state.currentRound InvalidHash > 2 * p.state.prevotes.f ∧ p.state.currentStep = StepPrevote))
    (hq : p.state.proposals.queryByHeightRoundSignatory p.state.currentHeight m.round (p.env.scheduler p.state.currentHeight m.round) = none)
    (hsig : p.signatory ≠ p.env.scheduler p.state.currentHeight m.round) :
    handlePrevote p m = Except.ok
      ({ p with state := { p.state with prevotes := (p.state.prevotes.insert m).1, currentRound := m.round, currentStep := StepPropose } },
        [Effect.scheduleTimeoutPropose p.state.currentHeight m.round (p.env.timeout StepPropose m.round)]) := by
  have hA : ¬((p.state.prevotes.insert m).2.2.2.2 = true ∧ m.height = p.state.currentHeight ∧
      m.round = p.state.currentRound ∧ p.state.currentStep = StepPrevote) := by
    rintro ⟨-, -, h3, -⟩
    exact absurd h3 (ne_of_gt hr)
  have hsr := startRound_nonproposer
    ({ p with state := { p.state with prevotes := (p.state.prevotes.insert m).1 } } : Proc) m.round hsig
  have hcp := checkPrevotes_no_proposal
    ({ p with state := { p.state with prevotes := (p.state.prevotes.insert m).1, currentRound := m.round, currentStep := StepPropose } } : Proc) hq
  have hcf := checkFirstTime_no_proposal
    ({ p with state := { p.state with prevotes := (p.state.prevotes.insert m).1, currentRound := m.round, currentStep := StepPropose } } : Proc) hq
  simp only [handlePrevote]
  rw [if_neg hA]
  try simp only []
  simp only [Inbox.insert_f]
  rw [if_neg hnil]
  try simp only []
  simp only [Inbox.insert_f]
  rw [if_pos ⟨hn, hh, hr⟩]
  rw [hsr]
  try simp only []
  rw [hcp]
  try simp only []
  cases hft2 : (p.state.prevotes.insert m).2.2.2.2 with
  | false =>
    simp
  | true =>
    simp only [if_pos]
    rw [hcf]
    simp

/-- Auxiliary: a `k`-byte little-endian decomposition has length `k`. -/
theorem natToBytesLE_length (k n : Nat) : (natToBytesLE k n).length = k := by
  induction k generalizing n with
  | zero => rfl
  | succ k ih => simp [natToBytesLE, ih]

/-- Auxiliary: recomposing the `k`-byte decomposition of `n < 256^k`
gives `n` back. -/
theorem bytesToNatLE_natToBytesLE (k n : Nat) (h : n < 256 ^ k) :
    bytesToNatLE (natToBytesLE k n) = n := by
  induction k generalizing n with
  | zero => simp [natToBytesLE, bytesToNatLE]; omega
  | succ k ih =>
    have hd : n / 256 < 256 ^ k := by
      rw [Nat.div_lt_iff_lt_mul (by norm_num)]
      rw [pow_succ] at h
      exact h
    simp only [natToBytesLE, bytesToNatLE, ih (n / 256) hd]
    omega

/-- Auxiliary: the int64 encoding is 8 bytes. -/
theorem toLE64_length (v : Int) : (toLE64 v).length = 8 := natToBytesLE_length 8 _

/-- Auxiliary: the int64 encoding round-trips for values in the int64
range. -/
theorem fromLE64_toLE64 (v : Int) (h1 : -(2 ^ 63 : Int) ≤ v) (h2 : v < 2 ^ 63) :
    fromLE64 (toLE64 v) = v := by
  unfold fromLE64 toLE64
  have e64 : (2 ^ 64 : Int) = 18446744073709551616 := by norm_num
  have hmod : 0 ≤ v % (2 ^ 64 : Int) := Int.emod_nonneg v (by norm_num)
  have hlt : v % (2 ^ 64 : Int) < 2 ^ 64 := Int.emod_lt_of_pos v (by norm_num)
  have hnb : (v % (2 ^ 64 : Int)).toNat < 256 ^ 8 := by
    have : ((v % (2 ^ 64 : Int)).toNat : Int) < (256 ^ 8 : Int) := by
      rw [Int.toNat_of_nonneg hmod]; norm_num at hlt ⊢; omega
    exact_mod_cast this
  rw [bytesToNatLE_natToBytesLE 8 _ hnb]
  have hcast : ((v % (2 ^ 64 : Int)).toNat : Int) = v % (2 ^ 64 : Int) := Int.toNat_of_nonneg hmod
  have hvm : v % (2 ^ 64 : Int) = v ∨ v % (2 ^ 64 : Int) = v + 2 ^ 64 := by
    rw [e64] at hmod hlt ⊢
    norm_num at h1 h2
    omega
  by_cases hc : (v % (2 ^ 64 : Int)).toNat < 2 ^ 63
  · rw [if_pos hc, hcast]
    have : ((v % (2 ^ 64 : Int)).toNat : Int) < (2 ^ 63 : Int) := by exact_mod_cast Nat.cast_lt.mpr hc
    rw [hcast] at this
    rw [e64] at hvm
    norm_num at h1 h2 this ⊢
    omega
  · rw [if_neg hc, hcast]
    have : ¬ ((v % (2 ^ 64 : Int)).toNat : Int) < (2 ^ 63 : Int) := by
      intro hx
      exact hc (by exact_mod_cast hx)
    rw [hcast] at this
    rw [e64] at hvm ⊢
    norm_num at h1 h2 this ⊢
    omega

/-- Auxiliary: reading an int64 from an encoded prefix. -/
theorem readInt64_append (v : Int) (rest : List Nat) (h1 : -(2 ^ 63 : Int) ≤ v) (h2 : v < 2 ^ 63) :
    readInt64 (toLE64 v ++ rest) = some (v, rest) := by
  unfold readInt64
  rw [if_pos (by simp [toLE64_length])]
  rw [List.take_left' (toLE64_length v), List.drop_left' (toLE64_length v),
    fromLE64_toLE64 v h1 h2]

/-- Auxiliary: reading a uint64 length prefix. -/
theorem readU64_append (n : Nat) (rest : List Nat) (h : n < 2 ^ 64) :
    readU64 (natToBytesLE 8 (n % 2 ^ 64) ++ rest) = some (n, rest) := by
  unfold readU64
  rw [if_pos (by simp [natToBytesLE_length])]
  rw [List.take_left' (natToBytesLE_length 8 _), List.drop_left' (natToBytesLE_length 8 _)]
  rw [Nat.mod_eq_of_lt h, bytesToNatLE_natToBytesLE 8 n (by norm_num at h ⊢; omega)]

/-- Auxiliary: reading exactly the bytes of a known-length prefix. -/
theorem bufRead_exact (bs rest : List Nat) : bufRead bs.length (bs ++ rest) = some (bs, rest) := by
  unfold bufRead
  match bs with
  | [] => simp
  | b :: bs' =>
    rw [if_neg (by simp)]
    rw [if_neg (by simp)]
    rw [List.take_left, List.drop_left]
    simp

/-- Auxiliary: reading a buffer to its end. -/
theorem bufRead_all (bs : List Nat) : bufRead bs.length bs = some (bs, []) := by
  unfold bufRead
  match bs with
  | [] => simp
  | b :: bs' =>
    rw [if_neg (by simp)]
    rw [if_neg (by simp)]
    simp

/-- C8: decoding the binary encoding of a state reproduces the state —
for any initial receiver state, any state whose height, round, locked
round and valid round are in the int64 range and whose step is a byte,
and any block/tally codecs that round-trip on the encoded fields (with
encodings shorter than 2^64 bytes), `UnmarshalBinary` after
`MarshalBinary` succeeds and returns exactly the original state. -/
theorem c8_binary_round_trip (st st0 : State) (c : Codecs)
    (hh1 : -(2 ^ 63 : Int) ≤ st.currentHeight) (hh2 : st.currentHeight < 2 ^ 63)
    (hr1 : -(2 ^ 63 : Int) ≤ st.currentRound) (hr2 : st.currentRound < 2 ^ 63)
    (hs : st.currentStep < 256)
    (hlr1 : -(2 ^ 63 : Int) ≤ st.lockedRound) (hlr2 : st.lockedRound < 2 ^ 63)
    (hvr1 : -(2 ^ 63 : Int) ≤ st.validRound) (hvr2 : st.validRound < 2 ^ 63)
    (hlb : c.decBlock (c.encBlock st.lockedBlock) = Except.ok st.lockedBlock)
    (hvb : c.decBlock (c.encBlock st.validBlock) = Except.ok st.validBlock)
    (hpr : c.decProposals (c.encProposals st.proposals) = Except.ok st.proposals)
    (hpv : c.decPrevotes (c.encPrevotes st.prevotes) = Except.ok st.prevotes)
    (hpc : c.decPrecommits (c.encPrecommits st.precommits) = Except.ok st.precommits)
    (hl1 : (c.encBlock st.lockedBlock).length < 2 ^ 64)
    (hl2 : (c.encBlock st.validBlock).length < 2 ^ 64)
    (hl3 : (c.encProposals st.proposals).length < 2 ^ 64)
    (hl4 : (c.encPrevotes st.prevotes).length < 2 ^ 64)
    (hl5 : (c.encPrecommits st.precommits).length < 2 ^ 64) :
    unmarshalBinary st0 c (marshalBinary st c) = (st, none) := by
  unfold marshalBinary unmarshalBinary
  rw [readInt64_append _ _ hh1 hh2]
  simp only []
  rw [readInt64_append _ _ hr1 hr2]
  simp only [List.cons_append]
  rw [Nat.mod_eq_of_lt hs]
  simp only [List.nil_append]
  rw [readU64_append _ _ hl1]
  simp only []
  rw [bufRead_exact]
  simp only []
  rw [hlb]
  simp only []
  rw [readInt64_append _ _ hlr1 hlr2]
  simp only []
  rw [readU64_append _ _ hl2]
  simp only []
  rw [bufRead_exact]
  simp only []
  rw [hvb]
  simp only []
  rw [readInt64_append _ _ hvr1 hvr2]
  simp only []
  rw [readU64_append _ _ hl3]
  simp only []
  rw [bufRead_exact]
  simp only []
  rw [hpr]
  simp only []
  rw [readU64_append _ _ hl4]
  simp only []
  rw [bufRead_exact]
  simp only []
  rw [hpv]
  simp only []
  rw [readU64_append _ _ hl5]
  simp only []
  rw [bufRead_all]
  simp only []
  rw [hpc]

/-- A concrete environment for evaluations: a fixed foreign proposer
(signatory 99), an always-accepting validator and signature verifier,
and an Observer. -/
def exEnv : Env :=
  { scheduler := fun _ _ => 99
    isBlockValid := fun _ _ => true
    blockProposal := fun _ _ => Block.invalid
    timeout := fun _ _ => 1
    verify := fun _ => true
    hasObserver := true }

/-- A concrete genesis block whose header lists signatories 1, 2, 3. -/
def exGenesis : Block := { hash := 1, height := 0, round := 0, signatories := [1, 2, 3] }

def exEmptyProposals : Inbox ProposeMsg := { f := 1, msgs := [] }

def exEmptyPrevotes : Inbox PrevoteMsg := { f := 1, msgs := [] }

def exEmptyPrecommits : Inbox PrecommitMsg := { f := 1, msgs := [] }

/-- A concrete state with empty tallies (f = 1) and nothing locked. -/
def exBaseState (h : Height) (r : Round) (s : Step) : State :=
  { currentHeight := h, currentRound := r, currentStep := s
    lockedBlock := Block.invalid, lockedRound := InvalidRound
    validBlock := Block.invalid, validRound := InvalidRound
    proposals := exEmptyProposals, prevotes := exEmptyPrevotes, precommits := exEmptyPrecommits }

def exProcC1 : Proc :=
  { env := exEnv, signatory := 5, blockchain := [(0, exGenesis)], state := exBaseState 5 2 StepPrevote }

/-- A catch-up bundle for a block at height 3, in the past of `exProcC1`
(current height 5), carrying three matching precommits from the genesis
signatories. -/
def exBundlePast : LatestCommit :=
  { block := { hash := 33, height := 3, round := 0, signatories := [] }
    precommits := [⟨3, 0, 33, 1⟩, ⟨3, 0, 33, 2⟩, ⟨3, 0, 33, 3⟩] }

/-- A catch-up bundle for a block at height 9, in the future of
`exProcC1` (current height 5), carrying three matching precommits. -/
def exBundleFuture : LatestCommit :=
  { block := { hash := 44, height := 9, round := 0, signatories := [] }
    precommits := [⟨9, 0, 44, 1⟩, ⟨9, 0, 44, 2⟩, ⟨9, 0, 44, 3⟩] }

/-- C1: the catch-up guard is inverted relative to both the spec and the
source's own comment ("Check that the latest commit is from the
future").  On a well-formed bundle whose block height 3 is at most the
current height 5, the routine is not a no-op: it rewinds the state to
height 4 and emits an effect; on a bundle from the future (height 9 >
5) the routine returns immediately with the state unchanged and no
effect, so catch-up to a later height never happens. -/
theorem c1_catch_up_guard_inverted :
    exBundlePast.block.height ≤ exProcC1.state.currentHeight ∧
    (syncLatestCommit exProcC1 exBundlePast).toOption.map
      (fun x => (x.1.state.currentHeight, x.1.state.currentRound, x.2.length)) = some (4, 0, 1) ∧
    exBundleFuture.block.height > exProcC1.state.currentHeight ∧
    syncLatestCommit exProcC1 exBundleFuture = Except.ok (exProcC1, []) :=
  ⟨by decide, by decide, by decide, rfl⟩

def exProcC2 : Proc :=
  { env := exEnv, signatory := 5, blockchain := [(0, exGenesis)], state := exBaseState 10 2 StepPrevote }

/-- A catch-up bundle for a block at height 2, far in the past of
`exProcC2` (current height 10), carrying three matching precommits. -/
def exBundleLow : LatestCommit :=
  { block := { hash := 55, height := 2, round := 0, signatories := [] }
    precommits := [⟨2, 0, 55, 1⟩, ⟨2, 0, 55, 2⟩, ⟨2, 0, 55, 3⟩] }

/-- C2: catch-up is not monotone in currentHeight.  Because of the
inverted guard, a process at height 10 that receives a well-formed
bundle for a block at height 2 acts on it and sets currentHeight to 3
(= block height + 1, with currentRound 0), strictly decreasing
currentHeight. -/
theorem c2_catch_up_can_decrease_height :
    (syncLatestCommit exProcC2 exBundleLow).toOption.map
      (fun x => (x.1.state.currentHeight, x.1.state.currentRound)) = some (3, 0) ∧
    (3 : Height) < exProcC2.state.currentHeight :=
  ⟨by decide, by decide⟩

/-- A concrete block proposed at height 1. -/
def exBlockH1 : Block := { hash := 42, height := 1, round := 0, signatories := [] }

/-- A concrete proposal for `exBlockH1` at (1, 0) from the scheduled
proposer 99. -/
def exProposeH1 : ProposeMsg :=
  { height := 1, round := 0, block := exBlockH1, validRound := InvalidRound, signatory := 99
    latestCommit := { block := Block.invalid, precommits := [] } }

def exProcC3 : Proc :=
  { env := exEnv, signatory := 5, blockchain := [(0, exGenesis)]
    state := { exBaseState 1 0 StepPrecommit with
      proposals := { f := 1, msgs := [exProposeH1] }
      precommits := { f := 1, msgs := [⟨1, 0, 42, 1⟩, ⟨1, 0, 42, 2⟩, ⟨1, 0, 42, 3⟩] } } }

theorem c3_commit_rule_witness :
    ∃ q effs, checkProposeInCurrentHeightWithPrecommits exProcC3 0 = Except.ok (q, effs) ∧
      q.state.currentHeight = exProcC3.state.currentHeight + 1 ∧
      effs.count (Effect.didCommitBlock exProcC3.state.currentHeight) = 1 := by
  obtain ⟨prop, q, effs, hq, heq, hh, h0, hs, hb, hc⟩ := (c3_commit_rule exProcC3 0).2 (by decide) rfl
  exact ⟨q, effs, heq, hh, hc⟩

def exProcC4 : Proc :=
  { env := exEnv, signatory := 5, blockchain := [(0, exGenesis)]
    state := { exBaseState 1 0 StepPrevote with
      proposals := { f := 1, msgs := [exProposeH1] }
      prevotes := { f := 1, msgs := [⟨1, 0, 42, 1⟩, ⟨1, 0, 42, 2⟩, ⟨1, 0, 42, 3⟩] } } }

theorem c4_first_time_prevote_quorum_witness :
    (checkProposeInCurrentHeightAndRoundWithPrevotesForTheFirstTime exProcC4).1.state.currentStep = StepPrecommit ∧
    (checkProposeInCurrentHeightAndRoundWithPrevotesForTheFirstTime exProcC4).1.state.lockedBlock = exBlockH1 ∧
    (checkProposeInCurrentHeightAndRoundWithPrevotesForTheFirstTime exProcC4).2.length = 1 := by
  rw [(c4_first_time_prevote_quorum exProcC4 exProposeH1 (by decide) (by decide) rfl).1 rfl]
  exact ⟨rfl, rfl, rfl⟩

def exProcC5 : Proc :=
  { env := exEnv, signatory := 5, blockchain := [(0, exGenesis)], state := exBaseState 1 0 StepPropose }

theorem c5_first_round_propose_rule_witness :
    (firstRoundProposeRule exProcC5 exProposeH1).1.state.currentStep = StepPrevote ∧
    (firstRoundProposeRule exProcC5 exProposeH1).2 =
      [Effect.broadcastPrevote { height := 1, round := 0, blockHash := 42, signatory := 5 }] := by
  rw [(c5_first_round_propose_rule exProcC5 exProposeH1).2 (by decide) (by decide) (by decide)]
  exact ⟨rfl, by decide⟩

def exProcC7 : Proc :=
  { env := exEnv, signatory := 5, blockchain := [(0, exGenesis)], state := exBaseState 1 0 StepPrecommit }

theorem c7_timeout_handlers_witness :
    timeoutPrecommit exProcC7 1 0 = startRound exProcC7 (exProcC7.state.currentRound + 1) :=
  (c7_timeout_handlers exProcC7 1 0).2.2.2.2.2 (by decide)

/-- A proposal at (1, 2) with valid round 1 from the scheduled proposer,
already in the proposal tally of `exProcC6`. -/
def exProposeC6 : ProposeMsg :=
  { height := 1, round := 2, block := { hash := 33, height := 1, round := 2, signatories := [] }
    validRound := 1, signatory := 99
    latestCommit := { block := Block.invalid, precommits := [] } }

/-- A process (f = 0) at (1, 0) holding `exProposeC6` and one prevote for
its block at (1, 1), so that after a skip-ahead to round 2 the
valid-round prevote check fires. -/
def exStateC6 : State :=
  { currentHeight := 1, currentRound := 0, currentStep := StepPrevote
    lockedBlock := Block.invalid, lockedRound := InvalidRound
    validBlock := Block.invalid, validRound := InvalidRound
    proposals := { f := 0, msgs := [exProposeC6] }
    prevotes := { f := 0, msgs := [⟨1, 1, 33, 7⟩] }
    precommits := { f := 0, msgs := [] } }

def exProcC6 : Proc :=
  { env := exEnv, signatory := 5, blockchain := [(0, exGenesis)], state := exStateC6 }

/-- A nil prevote at (1, 2): its insertion brings the count at (1, 2)
above F = 0 while 2 > currentRound 0, triggering skip-ahead. -/
def exPrevoteC6 : PrevoteMsg := { height := 1, round := 2, blockHash := 0, signatory := 8 }

/-- C6 counterexample: the skip-ahead antecedent holds (count above F at
(1, 2) of the current height, with 2 > 0), yet the handler does not stop
after StartRound(2): the check routines still run, broadcast a Prevote,
and move the step to Prevote, so the process is not left at
(currentHeight, m.round) in step Propose and the effects are not only
those of StartRound (which contributes a single timeout scheduling). -/
theorem c6_skip_ahead_counterexample :
    (exProcC6.state.prevotes.insert exPrevoteC6).2.1 > exProcC6.state.prevotes.f ∧
    exPrevoteC6.height = exProcC6.state.currentHeight ∧
    exPrevoteC6.round > exProcC6.state.currentRound ∧
    (handlePrevote exProcC6 exPrevoteC6).toOption.map
      (fun x => (x.1.state.currentStep, x.1.state.currentRound, x.2.length)) = some (StepPrevote, 2, 2) ∧
    StepPrevote ≠ StepPropose := by
  refine ⟨by decide, by decide, by decide, by decide, by decide⟩

/-- A process at (1, 0) with one prevote already tallied at (1, 2) and no
proposals, for the amended C6 statement. -/
def exProcC6w : Proc :=
  { env := exEnv, signatory := 5, blockchain := [(0, exGenesis)]
    state := { exBaseState 1 0 StepPrevote with prevotes := { f := 1, msgs := [⟨1, 2, 0, 7⟩] } } }

def exPrevoteC6w : PrevoteMsg := { height := 1, round := 2, blockHash := 0, signatory := 8 }

theorem c6_skip_ahead_amended_witness :
    (handlePrevote exProcC6w exPrevoteC6w).toOption.map
      (fun x => (x.1.state.currentRound, x.1.state.currentStep, x.2)) =
      some (2, StepPropose, [Effect.scheduleTimeoutPropose 1 2 1]) := by
  rw [c6_skip_ahead_amended exProcC6w exPrevoteC6w (by decide) (by decide) (by decide)
    (by decide) (by decide) (by decide)]
  rfl

/-- The state serialized in the C8 and C10 evaluations. -/
def exStateSer : State := exBaseState 5 2 StepPrevote

/-- The receiver state overwritten in the C8 and C10 evaluations. -/
def exStateZero : State := exBaseState 0 0 StepNil

/-- Concrete block and tally codecs for the serialization evaluations:
constant decoders matching the encodings of the fields of
`exStateSer`. -/
def exCodecs : Codecs :=
  { encBlock := fun _ => []
    decBlock := fun _ => Except.ok Block.invalid
    encProposals := fun _ => [7]
    decProposals := fun _ => Except.ok exEmptyProposals
    encPrevotes := fun _ => [8]
    decPrevotes := fun _ => Except.ok exEmptyPrevotes
    encPrecommits := fun _ => [9]
    decPrecommits := fun _ => Except.ok exEmptyPrecommits }

theorem c8_binary_round_trip_witness :
    unmarshalBinary exStateZero exCodecs (marshalBinary exStateSer exCodecs) = (exStateSer, none) :=
  c8_binary_round_trip exStateSer exStateZero exCodecs
    (by decide) (by decide) (by decide) (by decide) (by decide)
    (by decide) (by decide) (by decide) (by decide)
    rfl rfl rfl rfl rfl
    (by decide) (by decide) (by decide) (by decide) (by decide)

/-- A truncated input: a valid currentHeight (7) and currentRound (3)
and then nothing. -/
def exBytesTrunc : List Nat := toLE64 7 ++ toLE64 3

/-- C10: decoding is not atomic on failure.  On the 16-byte truncated
input `exBytesTrunc`, UnmarshalBinary fails (while reading CurrentStep)
but has already overwritten currentHeight (5 becomes 7) and currentRound
(2 becomes 3) of the receiver state; the remaining fields keep their old
values. -/
theorem c10_unmarshal_partial_overwrite :
    (unmarshalBinary exStateSer exCodecs exBytesTrunc).2.isSome = true ∧
    (unmarshalBinary exStateSer exCodecs exBytesTrunc).1.currentHeight = 7 ∧
    (unmarshalBinary exStateSer exCodecs exBytesTrunc).1.currentHeight ≠ exStateSer.currentHeight ∧
    (unmarshalBinary exStateSer exCodecs exBytesTrunc).1.currentRound = 3 ∧
    (unmarshalBinary exStateSer exCodecs exBytesTrunc).1.currentRound ≠ exStateSer.currentRound ∧
    (unmarshalBinary exStateSer exCodecs exBytesTrunc).1.currentStep = exStateSer.currentStep := by
  refine ⟨by decide, by decide, by decide, by decide, by decide, by decide⟩

/-- A replica at height 5 allowing signatories 1, 2, 3 with an empty
queue. -/
def exReplica : Replica := { procCurrentHeight := 5, procsAllowed := [1, 2, 3], mq := [] }

theorem c9_replica_filter_witness :
    exReplica.receivePropose ⟨6, 2⟩ = { exReplica with mq := [RMsg.propose ⟨6, 2⟩] } ∧
    exReplica.receivePrevote ⟨4, 2⟩ = exReplica ∧
    exReplica.receivePrecommit ⟨6, 9⟩ = exReplica := by
  refine ⟨?_, ?_, ?_⟩
  · exact (c9_replica_filter exReplica ⟨6, 2⟩ ⟨4, 2⟩ ⟨6, 9⟩).1 (by decide)
  · exact (c9_replica_filter exReplica ⟨6, 2⟩ ⟨4, 2⟩ ⟨6, 9⟩).2.2.2.1 (by decide)
  · exact (c9_replica_filter exReplica ⟨6, 2⟩ ⟨4, 2⟩ ⟨6, 9⟩).2.2.2.2.2 (by decide)
